import Mathlib

/-!
Verification of the EDT hierarchy classification and reconciliation engine
of the notion_automator repository, as a shallow embedding in Lean 4.

The embedding mirrors, function by function, the Python source:
  * `src/excel/processor.py`  — classifier, task-name generator, date formatting
  * `src/notion/utils.py`     — `process_edt_code`, `handle_api_call`, `create_date_range`
  * `src/excel_processor.py`  — the legacy `create_date_range`
  * `src/notion/tasks.py`     — modular task lookup / upsert operations
  * `src/notion/projects.py`  — modular batch engine (abort-on-error)
  * `src/notion_ops.py`       — legacy batch engine (skip / failed counting)

Python `str` operations used by the source (`split`, `strip`, `join`,
`startswith`, `endswith`, `upper`, `in`) are modelled by structurally
recursive functions over `String.data`, so that every definition evaluates
by kernel reduction.
-/

namespace Py

/-- Python `s.split(sep)` for a single-character separator, on char lists.
`""` splits to `[""]`, and empty fields between separators are kept. -/
def splitCharList (sep : Char) : List Char → List (List Char)
  | [] => [[]]
  | c :: rest =>
    let r := splitCharList sep rest
    if c = sep then [] :: r
    else
      match r with
      | h :: t => (c :: h) :: t
      | [] => [[c]]

/-- `splitCharList` never returns an empty list (Python `split` always
yields at least one field). -/
theorem splitCharList_ne_nil (sep : Char) (cs : List Char) :
    splitCharList sep cs ≠ [] := by
  induction cs with
  | nil => simp [splitCharList]
  | cons c rest ih =>
    simp only [splitCharList]
    split
    · simp
    · cases h : splitCharList sep rest with
      | nil => exact absurd h ih
      | cons a t => simp

/-- Python `s.split(sep)` for a single-character separator. -/
def pysplit (s : String) (sep : Char) : List String :=
  (splitCharList sep s.data).map (fun cs => ⟨cs⟩)

/-- Python `s.strip()`: drop whitespace from both ends. -/
def pystrip (s : String) : String :=
  ⟨((s.data.dropWhile Char.isWhitespace).reverse.dropWhile Char.isWhitespace).reverse⟩

/-- Python `sep.join(parts)` for a single-character separator. -/
def pyjoin (sep : Char) (parts : List String) : String :=
  ⟨((parts.map String.data).intersperse [sep]).flatten⟩

/-- Python `s.startswith(p)`. -/
def pystartswith (s p : String) : Bool :=
  p.data.isPrefixOf s.data

/-- Python `s.endswith(p)`. -/
def pyendswith (s p : String) : Bool :=
  p.data.isSuffixOf s.data

/-- Python `s.upper()` (ASCII-adequate for the markers used here). -/
def pyupper (s : String) : String :=
  ⟨s.data.map Char.toUpper⟩

/-- Substring containment on char lists: `p` is a prefix of some suffix. -/
def listInfix (p : List Char) : List Char → Bool
  | [] => p.isEmpty
  | c :: rest => p.isPrefixOf (c :: rest) || listInfix p rest

/-- Python `p in s` (substring containment). -/
def pycontains (s p : String) : Bool :=
  listInfix p.data s.data

end Py

open Py

namespace ExcelProc

/-!
### `src/excel/processor.py` — row classification

A sheet row carries (at most) an EDT code, a title, a TIPO cell and an
assignee cell; `none` models a `NaN`/missing cell (for which Python's
`str(row[...])`-based checks all come out `False` because `"nan"` neither
starts with `PR.` nor ends with `.M`; the source wraps each check in
`try/except` returning `False`, and `pd.isna` guards the rest).
-/

structure Row where
  edt : Option String
  title : Option String
  tipo : Option String
  assignee : Option String
deriving DecidableEq

/-- `ExcelProcessor.is_project`: EDT starts with `PR.` and has exactly two
dot-separated parts. -/
def is_project (row : Row) : Bool :=
  match row.edt with
  | none => false
  | some e =>
    let edt := pystrip e
    pystartswith edt "PR." && (pysplit edt '.').length = 2

/-- `ExcelProcessor.is_phase`: EDT starts with `PR.` and has exactly three
dot-separated parts. -/
def is_phase (row : Row) : Bool :=
  match row.edt with
  | none => false
  | some e =>
    let edt := pystrip e
    pystartswith edt "PR." && (pysplit edt '.').length = 3

/-- `ExcelProcessor.is_milestone`: EDT ends with `.M`, or the title contains
the `MILESTONE` marker. -/
def is_milestone (row : Row) : Bool :=
  (match row.edt with
   | none => false
   | some e => pyendswith (pystrip e) ".M") ||
  (match row.title with
   | none => false
   | some t =>
     let title := pystrip t
     pystartswith (pyupper title) "MILESTONE:" || pycontains (pyupper title) "MILESTONE")

/-- `config.config`: `type_config.mappings` (`{"M": "Milestone", "T": "Tarefa"}`)
with default `"Tarefa"`. -/
def type_mapping (v : String) : String :=
  if v = "M" then "Milestone" else if v = "T" then "Tarefa" else "Tarefa"

/-- `get_type` inside `ExcelProcessor.process_excel_data`: milestone check
first, then phase, then the TIPO column through `type_mapping`. -/
def get_type (row : Row) : String :=
  if is_milestone row then "Milestone"
  else if is_phase row then "Fase"
  else
    match row.tipo with
    | some v => type_mapping v
    | none => "Tarefa"

/-- `ExcelProcessor.get_parent_task`: drop the last dot-separated part of the
EDT; codes with at most two parts have no parent. -/
def get_parent_task (edt : Option String) : Option String :=
  match edt with
  | none => none
  | some e =>
    let parts := pysplit (pystrip e) '.'
    if parts.length ≤ 2 then none
    else some (pyjoin '.' parts.dropLast)

/-- The project filter of `process_excel_data`:
`task_rows = all_rows[~project_mask]`. -/
def filter_projects (rows : List Row) : List Row :=
  rows.filter (fun r => !is_project r)

end ExcelProc

namespace NotionUtils

/-- `src/notion/utils.py` `process_edt_code`: returns `(phase_code, edt_code)`.
A trailing `M` part selects the grandparent prefix; otherwise the first three
parts form the phase. -/
def process_edt_code (edt_code : String) : String × String :=
  if edt_code = "" then ("", "")
  else
    let e := pystrip edt_code
    let parts := pysplit e '.'
    if parts.getLastD "" = "M" then
      (pyjoin '.' (parts.dropLast.dropLast), e)
    else if 3 ≤ parts.length then
      (pyjoin '.' (parts.take 3), e)
    else (e, e)

end NotionUtils

/-!
### Dates

A parsed `datetime` value is modelled by its calendar components; Python's
`datetime` comparison is lexicographic on (year, month, day), and
`strftime("%Y-%m-%d")` zero-pads each component.
-/

structure PyDate where
  year : Nat
  month : Nat
  day : Nat
deriving DecidableEq

namespace PyDate

/-- `datetime` strict order (lexicographic on year, month, day). -/
def lt (a b : PyDate) : Bool :=
  a.year < b.year ||
    (a.year = b.year && (a.month < b.month ||
      (a.month = b.month && a.day < b.day)))

/-- Zero-pad the decimal representation of `n` to width `w`. -/
def pad (w n : Nat) : String :=
  ⟨List.replicate (w - (Nat.repr n).length) '0'⟩ ++ Nat.repr n

/-- `strftime("%Y-%m-%d")`. -/
def fmt (d : PyDate) : String :=
  pad 4 d.year ++ "-" ++ pad 2 d.month ++ "-" ++ pad 2 d.day

end PyDate

namespace ExcelProc

/-- `src/excel/processor.py` `format_date_range`: `none` models a missing
`date_dict`; the pair fields model the dict's `start`/`end` entries (absent
or unparseable cells being `None`). Output is the `{'start': _, 'end': _}`
dict. A single present date populates both ends; an inverted pair is
swapped. -/
def format_date_range (date_dict : Option (Option PyDate × Option PyDate)) :
    Option (String × String) :=
  match date_dict with
  | none => none
  | some (start, end_) =>
    match start, end_ with
    | none, none => none
    | some sd, none => some (PyDate.fmt sd, PyDate.fmt sd)
    | none, some ed => some (PyDate.fmt ed, PyDate.fmt ed)
    | some sd, some ed =>
      if PyDate.lt ed sd then some (PyDate.fmt ed, PyDate.fmt sd)
      else some (PyDate.fmt sd, PyDate.fmt ed)

end ExcelProc

namespace NotionUtils

/-- A raw date cell as `create_date_range` sees it: missing
(`pd.notna` false), present but unparseable (`pd.to_datetime` raises), or a
parsed date. -/
inductive DateCell where
  | absent
  | unparseable
  | val (d : PyDate)
deriving DecidableEq

namespace DateCell

/-- The Python local `start_str`/`end_str` after the conversion block: outer
`none` means the variable was never assigned (the cell was missing), inner
`none` means it was assigned `None` (parse failure). -/
def boundStr : DateCell → Option (Option String)
  | .absent => none
  | .unparseable => some none
  | .val d => some (some (PyDate.fmt d))

/-- The Python local `start_date`/`end_date` (initialised to `None`). -/
def boundDate : DateCell → Option PyDate
  | .val d => some d
  | _ => none

end DateCell

/-- `src/notion/utils.py` `create_date_range`, line for line.  `start_str` /
`end_str` are only assigned inside `if pd.notna(...)` blocks, so reading one
for a missing cell raises `UnboundLocalError` (modelled by `Except.error`);
Python's `and` short-circuits, which decides which variable is read first. -/
def create_date_range (start end_ : DateCell) :
    Except String (Option (String × String)) :=
  match start.boundStr with
  | none => .error "UnboundLocalError"     -- `if not start_str and ...` reads start_str
  | some none =>                           -- start_str = None: `not start_str` is True
    match end_.boundStr with
    | none => .error "UnboundLocalError"   -- `... and not end_str` reads end_str
    | some none => .ok none                -- both None: return None
    | some (some es) => .ok (some (es, es))  -- `end_str and not start_str` branch
  | some (some ss) =>                      -- start_str truthy: first guard short-circuits
    match end_.boundStr with
    | none => .error "UnboundLocalError"   -- `if start_str and not end_str` reads end_str
    | some none => .ok (some (ss, ss))     -- only start: use it for both
    | some (some es) =>
      match start.boundDate, end_.boundDate with
      | some sd, some ed =>
        if PyDate.lt ed sd then .ok (some (es, ss))  -- swap
        else .ok (some (ss, es))
      | _, _ => .ok (some (ss, es))        -- unreachable: a string implies a date

end NotionUtils

namespace LegacyExcel

/-- `src/excel_processor.py` `create_date_range` (the legacy processor):
formats each present cell, returns `{'start': s}` possibly extended with
`'end'`; only when solely an end date exists is it copied to both ends.
No swap is performed.  The second output component models the optional
`'end'` key. -/
def create_date_range (start end_ : Option PyDate) :
    Option (String × Option String) :=
  match start.map PyDate.fmt, end_.map PyDate.fmt with
  | some ss, oe => some (ss, oe)
  | none, some es => some (es, some es)
  | none, none => none

end LegacyExcel

namespace NatRepr

/-- With enough fuel, `Nat.toDigitsCore` produces the base-10 digits of a
positive number, most significant first. -/
theorem toDigitsCore_eq (fuel : Nat) :
    ∀ n ds, 0 < n → n ≤ fuel →
      Nat.toDigitsCore 10 fuel n ds =
        ((Nat.digits 10 n).map Nat.digitChar).reverse ++ ds := by
  induction fuel with
  | zero => intro n ds h1 h2; omega
  | succ fuel ih =>
    intro n ds h1 h2
    have hd : Nat.digits 10 n = n % 10 :: Nat.digits 10 (n / 10) :=
      Nat.digits_def' (by norm_num) h1
    by_cases h0 : n / 10 = 0
    · have hnil : Nat.digits 10 (n / 10) = [] := by rw [h0]; simp
      simp [Nat.toDigitsCore, h0, hd, hnil]
    · have hlt : n / 10 ≤ fuel := by
        have := Nat.div_lt_self h1 (by norm_num : 1 < 10)
        omega
      have hrec := ih (n / 10) (Nat.digitChar (n % 10) :: ds)
        (Nat.pos_of_ne_zero h0) hlt
      simp [Nat.toDigitsCore, h0, hrec, hd]

/-- `Nat.repr` of a positive number, through `Nat.digits`. -/
theorem repr_eq_of_pos (n : Nat) (h : 0 < n) :
    Nat.repr n = ⟨((Nat.digits 10 n).map Nat.digitChar).reverse⟩ := by
  show (Nat.toDigits 10 n).asString = _
  rw [Nat.toDigits, toDigitsCore_eq (n + 1) n [] h (Nat.le_succ n)]
  simp [List.asString]

theorem digitChar_val (d : Nat) (h : d < 10) :
    (Nat.digitChar d).toNat - 48 = d := by
  interval_cases d <;> decide

theorem map_val_digitChar (D : List Nat) (h : ∀ d ∈ D, d < 10) :
    D.map ((fun c : Char => c.toNat - 48) ∘ Nat.digitChar) = D := by
  conv_rhs => rw [← List.map_id D]
  exact List.map_congr_left (fun d hd => digitChar_val d (h d hd))

/-- Decimal printing is injective. -/
theorem repr_injective : Function.Injective Nat.repr := by
  have key : ∀ m n : Nat, 0 < m → 0 < n → Nat.repr m = Nat.repr n → m = n := by
    intro m n hm hn h
    rw [repr_eq_of_pos m hm, repr_eq_of_pos n hn] at h
    have hdata : ((Nat.digits 10 m).map Nat.digitChar).reverse =
        ((Nat.digits 10 n).map Nat.digitChar).reverse := congrArg String.data h
    have hmap : (Nat.digits 10 m).map Nat.digitChar =
        (Nat.digits 10 n).map Nat.digitChar := by
      have := congrArg List.reverse hdata
      simpa using this
    have hdig : Nat.digits 10 m = Nat.digits 10 n := by
      have h2 := congrArg (List.map (fun c : Char => c.toNat - 48)) hmap
      rw [List.map_map, List.map_map] at h2
      rw [map_val_digitChar _ (fun d hd => Nat.digits_lt_base (by norm_num) hd),
        map_val_digitChar _ (fun d hd => Nat.digits_lt_base (by norm_num) hd)] at h2
      exact h2
    exact Nat.digits_inj_iff.mp hdig
  intro m n h
  rcases Nat.eq_zero_or_pos m with hm | hm <;> rcases Nat.eq_zero_or_pos n with hn | hn
  · omega
  · exfalso
    subst hm
    rw [repr_eq_of_pos n hn] at h
    have hdata : ['0'] = ((Nat.digits 10 n).map Nat.digitChar).reverse :=
      congrArg String.data h
    have hmap : (Nat.digits 10 n).map Nat.digitChar = ['0'] := by
      have := congrArg List.reverse hdata
      simpa using this.symm
    have h2 := congrArg (List.map (fun c : Char => c.toNat - 48)) hmap
    rw [List.map_map,
      map_val_digitChar _ (fun d hd => Nat.digits_lt_base (by norm_num) hd)] at h2
    simp at h2
    have : n = 0 := by
      have := Nat.ofDigits_digits 10 n
      rw [h2] at this
      simpa using this.symm
    omega
  · exfalso
    subst hn
    rw [repr_eq_of_pos m hm] at h
    have hdata : ((Nat.digits 10 m).map Nat.digitChar).reverse = ['0'] :=
      congrArg String.data h
    have hmap : (Nat.digits 10 m).map Nat.digitChar = ['0'] := by
      have := congrArg List.reverse hdata
      simpa using this
    have h2 := congrArg (List.map (fun c : Char => c.toNat - 48)) hmap
    rw [List.map_map,
      map_val_digitChar _ (fun d hd => Nat.digits_lt_base (by norm_num) hd)] at h2
    simp at h2
    have : m = 0 := by
      have := Nat.ofDigits_digits 10 m
      rw [h2] at this
      simpa using this.symm
    omega
  · exact key m n hm hn h

end NatRepr

namespace Py

theorem str_ext {s t : String} (h : s.data = t.data) : s = t := by
  cases s; cases t; exact congrArg String.mk h

theorem str_data_append (s t : String) : (s ++ t).data = s.data ++ t.data := by
  cases s; cases t; rfl

end Py

namespace ExcelProc

/-! ### `TaskNameGenerator` (`src/excel/processor.py`) with the
`task_naming` configuration of `config/config.py`. -/

def empty_task_prefix : String := "Task"

def empty_milestone_prefix : String := "Milestone"

def use_edt_as_fallback : Bool := true

/-- `unique_suffix_pattern.format(index=index)` with pattern `"_{index}"`. -/
def unique_suffix (index : Nat) : String := "_" ++ Nat.repr index

/-- `f"{base_name} {suffix}"`. -/
def candidate_name (base : String) (index : Nat) : String :=
  base ++ " " ++ unique_suffix index

/-- The `while True` search of `generate_unique_name`, with explicit fuel
(the source loop always terminates because decimal suffixes are pairwise
distinct; `find_free_name_total` below shows `used.length + 1` fuel
suffices). -/
def find_free_name (base : String) (used : List String) : Nat → Nat → Option String
  | 0, _ => none
  | fuel + 1, index =>
    let n := candidate_name base index
    if n ∈ used then find_free_name base used fuel (index + 1) else some n

/-- `TaskNameGenerator.generate_unique_name`: return the base name when
unused, else the first suffixed candidate, recording it in `used_names`. -/
def generate_unique_name (used : List String) (base : String) : String × List String :=
  if base ∈ used then
    let n := (find_free_name base used (used.length + 1) 1).getD base
    (n, n :: used)
  else (base, base :: used)

/-- The fallback base name for a blank title, from prefix and EDT. -/
def fallback_name (pfx : String) (edt : Option String) : String :=
  if use_edt_as_fallback && edt.isSome then pfx ++ " " ++ edt.getD ""
  else
    match edt with
    | some e => pfx ++ " " ++ e
    | none => pfx

/-- The base-name computation of `TaskNameGenerator.get_task_name`. -/
def task_name_base (row : Row) (is_mile : Bool) : String :=
  let pfx := if is_mile then empty_milestone_prefix else empty_task_prefix
  match row.title with
  | some t => if pystrip t = "" then fallback_name pfx row.edt else pystrip t
  | none => fallback_name pfx row.edt

/-- `TaskNameGenerator.get_task_name`. -/
def get_task_name (used : List String) (row : Row) (is_mile : Bool) :
    String × List String :=
  generate_unique_name used (task_name_base row is_mile)

/-- One step of the title mapping in `process_excel_data`
(`get_task_name(row, is_milestone=self.is_milestone(row))`). -/
def name_step (acc : List String × List String) (row : Row) :
    List String × List String :=
  let r := get_task_name acc.2 row (is_milestone row)
  (acc.1 ++ [r.1], r.2)

/-- The whole title column of one processing run (the generator is reset, so
`used_names` starts empty). -/
def run_task_names (rows : List Row) : List String × List String :=
  rows.foldl name_step ([], [])

theorem candidate_name_inj (base : String) {i j : Nat}
    (h : candidate_name base i = candidate_name base j) : i = j := by
  have hdata := congrArg String.data h
  simp only [candidate_name, unique_suffix, str_data_append] at hdata
  have h1 := List.append_cancel_left hdata
  have h2 := List.append_cancel_left h1
  exact NatRepr.repr_injective (str_ext h2)

theorem find_free_name_spec (base : String) (used : List String) :
    ∀ fuel index n, find_free_name base used fuel index = some n →
      n ∉ used ∧ ∃ i, index ≤ i ∧ n = candidate_name base i := by
  intro fuel
  induction fuel with
  | zero => intro index n h; simp [find_free_name] at h
  | succ fuel ih =>
    intro index n h
    simp only [find_free_name] at h
    split at h
    · obtain ⟨h1, i, h2, h3⟩ := ih (index + 1) n h
      exact ⟨h1, i, by omega, h3⟩
    · rename_i hmem
      cases h
      exact ⟨hmem, index, le_refl _, rfl⟩

theorem find_free_name_of_exists (base : String) (used : List String) :
    ∀ fuel index,
      (∃ j, index ≤ j ∧ j < index + fuel ∧ candidate_name base j ∉ used) →
      ∃ n, find_free_name base used fuel index = some n := by
  intro fuel
  induction fuel with
  | zero => intro index ⟨j, h1, h2, _⟩; omega
  | succ fuel ih =>
    intro index ⟨j, h1, h2, h3⟩
    simp only [find_free_name]
    split
    · rename_i hmem
      apply ih (index + 1)
      refine ⟨j, ?_, by omega, h3⟩
      rcases Nat.eq_or_lt_of_le h1 with rfl | h
      · exact absurd hmem h3
      · omega
    · exact ⟨_, rfl⟩

theorem exists_free_index (base : String) (used : List String) :
    ∃ j, 1 ≤ j ∧ j < 1 + (used.length + 1) ∧ candidate_name base j ∉ used := by
  by_contra hall
  push_neg at hall
  have hmaps : ∀ j ∈ Finset.Icc 1 (used.length + 1),
      candidate_name base j ∈ used.toFinset := by
    intro j hj
    rw [Finset.mem_Icc] at hj
    rw [List.mem_toFinset]
    exact hall j hj.1 (by omega)
  have hinj : Set.InjOn (fun j => candidate_name base j)
      ↑(Finset.Icc 1 (used.length + 1)) :=
    fun a _ b _ h => candidate_name_inj base h
  have hcard := Finset.card_le_card_of_injOn _ hmaps hinj
  rw [Nat.card_Icc] at hcard
  have hle := used.toFinset_card_le
  omega

/-- With fuel `used.length + 1`, the search always succeeds on a name not
yet used. -/
theorem find_free_name_total (base : String) (used : List String) :
    ∃ n, find_free_name base used (used.length + 1) 1 = some n ∧
      n ∉ used ∧ ∃ i, 1 ≤ i ∧ n = candidate_name base i := by
  obtain ⟨n, hn⟩ := find_free_name_of_exists base used (used.length + 1) 1
    (exists_free_index base used)
  obtain ⟨h1, h2⟩ := find_free_name_spec base used _ _ _ hn
  exact ⟨n, hn, h1, h2⟩

theorem generate_unique_name_spec (used : List String) (base : String) :
    (generate_unique_name used base).1 ∉ used ∧
    (generate_unique_name used base).2 = (generate_unique_name used base).1 :: used ∧
    ((generate_unique_name used base).1 = base ∨
      ∃ i, (generate_unique_name used base).1 = candidate_name base i) := by
  unfold generate_unique_name
  split
  · rename_i hmem
    obtain ⟨n, hn, hfree, i, _, hcand⟩ := find_free_name_total base used
    rw [hn]
    exact ⟨hfree, rfl, Or.inr ⟨i, hcand⟩⟩
  · rename_i hmem
    exact ⟨hmem, rfl, Or.inl rfl⟩

namespace C10support

theorem append_space_ne_empty (s mid e : String) (hmid : mid.data.length = 1) :
    s ++ mid ++ e ≠ "" := by
  intro h
  have hlen := congrArg (fun x => x.data.length) h
  simp only [str_data_append, List.length_append, List.length_nil] at hlen
  have hempty : ("" : String).data.length = 0 := rfl
  omega

theorem fallback_name_ne_empty (pfx : String) (edt : Option String)
    (hp : pfx ≠ "") : fallback_name pfx edt ≠ "" := by
  unfold fallback_name
  split
  · exact append_space_ne_empty _ _ _ rfl
  · match edt with
    | some e => exact append_space_ne_empty _ _ _ rfl
    | none => exact hp

theorem task_name_base_ne_empty (row : Row) (m : Bool) :
    task_name_base row m ≠ "" := by
  have hp : (if m then empty_milestone_prefix else empty_task_prefix) ≠ "" := by
    cases m <;> decide
  unfold task_name_base
  match h : row.title with
  | some t =>
    simp only []
    split
    · exact fallback_name_ne_empty _ _ hp
    · rename_i hne
      exact hne
  | none => exact fallback_name_ne_empty _ _ hp

theorem candidate_name_ne_empty (base : String) (i : Nat) :
    candidate_name base i ≠ "" :=
  append_space_ne_empty _ _ _ rfl

theorem get_task_name_ne_empty (used : List String) (row : Row) (m : Bool) :
    (get_task_name used row m).1 ≠ "" := by
  obtain ⟨_, _, h⟩ := generate_unique_name_spec used (task_name_base row m)
  unfold get_task_name
  rcases h with h | ⟨i, h⟩
  · rw [h]; exact task_name_base_ne_empty row m
  · rw [h]; exact candidate_name_ne_empty _ _

theorem run_aux (rows : List Row) :
    ∀ outs used, outs.Nodup → (∀ x ∈ outs, x ∈ used) →
      (rows.foldl name_step (outs, used)).1.Nodup ∧
      ∀ x ∈ (rows.foldl name_step (outs, used)).1,
        x ∈ (rows.foldl name_step (outs, used)).2 := by
  induction rows with
  | nil => intro outs used h1 h2; exact ⟨h1, h2⟩
  | cons r rest ih =>
    intro outs used h1 h2
    obtain ⟨hfree, hused, _⟩ :=
      generate_unique_name_spec used (task_name_base r (is_milestone r))
    have hstep : name_step (outs, used) r =
        (outs ++ [(generate_unique_name used (task_name_base r (is_milestone r))).1],
         (generate_unique_name used (task_name_base r (is_milestone r))).1 :: used) := by
      simp [name_step, get_task_name, hused]
    rw [List.foldl_cons, hstep]
    apply ih
    · rw [List.nodup_append]
      refine ⟨h1, List.nodup_singleton _, ?_⟩
      intro a ha hb
      rw [List.mem_singleton] at hb
      subst hb
      exact hfree (h2 _ ha)
    · intro x hx
      rcases List.mem_append.mp hx with hx | hx
      · exact List.mem_cons_of_mem _ (h2 x hx)
      · rw [List.mem_singleton] at hx
        subst hx
        exact List.mem_cons_self _ _

end C10support

end ExcelProc

namespace NotionUtils

/-!
### `src/notion/utils.py` `handle_api_call` / `notion_ops.py` `_handle_api_call`

The remote call is an oracle `call : Nat → Except ε α` giving the outcome of
each attempt.  The loop runs `max_retries` attempts, returns the first
success, re-raises the error of the last attempt, and — when `max_retries`
is `0` — falls through the loop returning Python `None` (modelled `none`).
-/

def handle_api_call_go (call : Nat → Except ε α) : Nat → Nat → Option (Except ε α)
  | 0, _ => none
  | fuel + 1, attempt =>
    match call attempt with
    | .ok a => some (.ok a)
    | .error e =>
      if fuel = 0 then some (.error e)
      else handle_api_call_go call fuel (attempt + 1)

def handle_api_call (call : Nat → Except ε α) (max_retries : Nat) :
    Option (Except ε α) :=
  handle_api_call_go call max_retries 0

/-- If every attempt fails, the bounded retry is exhausted and the error of
the last attempt is re-raised. -/
theorem handle_api_call_go_all_fail (call : Nat → Except ε α) (e : Nat → ε)
    (hfail : ∀ n, call n = .error (e n)) :
    ∀ fuel attempt, 0 < fuel →
      handle_api_call_go call fuel attempt = some (.error (e (attempt + fuel - 1))) := by
  intro fuel
  induction fuel with
  | zero => intro attempt h; omega
  | succ fuel ih =>
    intro attempt _
    simp only [handle_api_call_go, hfail attempt]
    by_cases h0 : fuel = 0
    · subst h0; simp
    · rw [if_neg h0, ih (attempt + 1) (Nat.pos_of_ne_zero h0)]
      have harith : attempt + 1 + fuel - 1 = attempt + (fuel + 1) - 1 := by omega
      rw [harith]

theorem handle_api_call_all_fail (call : Nat → Except ε α) (e : Nat → ε)
    (max_retries : Nat) (hpos : 0 < max_retries)
    (hfail : ∀ n, call n = .error (e n)) :
    handle_api_call call max_retries = some (.error (e (max_retries - 1))) := by
  have := handle_api_call_go_all_fail call e hfail max_retries 0 hpos
  simpa [handle_api_call] using this

/-- If the first attempt succeeds, the call returns at once. -/
theorem handle_api_call_first_ok (call : Nat → Except ε α) (a : α)
    (max_retries : Nat) (hpos : 0 < max_retries) (hok : call 0 = .ok a) :
    handle_api_call call max_retries = some (.ok a) := by
  obtain ⟨fuel, rfl⟩ := Nat.exists_eq_succ_of_ne_zero (Nat.pos_iff_ne_zero.mp hpos)
  simp [handle_api_call, handle_api_call_go, hok]

end NotionUtils

namespace NotionTasks

/-!
### `src/notion/tasks.py` — modular task operations

The remote store is external: query calls return `Except` values (an
`.error` models a raised exception inside the API call), and write calls
are per-attempt oracles fed to `handle_api_call`.
-/

/-- A record of the remote Tasks database with the properties these
operations read back (`id`, title, EDT, project relation, parent
relation). -/
structure Record where
  id : Nat
  name : String
  edt : String
  project : String
  parent : Option Nat
deriving DecidableEq

/-- Which write API `create_or_update_task` ends up issuing. -/
inductive Action where
  | createCalled
  | updateCalled (page_id : Nat)
deriving DecidableEq

/-- The remote boundary seen by `TaskOperations`. -/
structure Api where
  queryExisting : String → String → String → Except String (List Record)
  queryByEdt : String → String → Except String (List Record)
  createAttempt : Nat → Except String Nat
  updateAttempt : Nat → Nat → Except String Nat

/-- A task row as `create_or_update_task` receives it (Notion-named
columns). -/
structure Task where
  name : String
  edt : Option String
  parent : Option String
deriving DecidableEq

/-- `TaskOperations.find_existing_task`: first result of the composite-key
query; any exception is caught and becomes `None`. -/
def find_existing_task (response : Except String (List Record)) : Option Record :=
  match response with
  | .ok rs => rs.head?
  | .error _ => none

/-- `TaskOperations.find_task_by_edt`: first result of the EDT/project
query; any exception is caught and becomes `None`. -/
def find_task_by_edt (response : Except String (List Record)) : Option Record :=
  match response with
  | .ok rs => rs.head?
  | .error _ => none

/-- The property bag built by `TaskOperations.create_task_properties`:
a project relation always, a parent relation only when the parent EDT is
truthy, non-NaN and resolves remotely. -/
structure Props where
  name : String
  edt : Option String
  project : String
  parent : Option Nat
deriving DecidableEq

def create_task_properties (api : Api) (task : Task) (project_id : String) :
    Props :=
  let parentRel :=
    match task.parent with
    | some p =>
      if p ≠ "" then (find_task_by_edt (api.queryByEdt p project_id)).map (·.id)
      else none
    | none => none
  { name := task.name, edt := task.edt, project := project_id,
    parent := parentRel }

/-- Python truthiness of the EDT cell guarding the existence lookup. -/
def edt_truthy : Option String → Bool
  | some s => s ≠ ""
  | none => false

/-- `TaskOperations.create_or_update_task`: look up by (name, EDT, project),
then update the found page or create a new one, each write through the
bounded retry.  The first component records which API call was issued.
(`handle_api_call` returning Python `None` — only possible with
`max_retries = 0` — makes the create path fail on `response["id"]`, while
the update path still returns the existing id.) -/
def create_or_update_task (api : Api) (max_retries : Nat) (task : Task)
    (project_id : String) : Action × Except String Nat :=
  let existing :=
    if edt_truthy task.edt then
      find_existing_task (api.queryExisting task.name (task.edt.getD "") project_id)
    else none
  let _props := create_task_properties api task project_id
  match existing with
  | some r =>
    (.updateCalled r.id,
      match NotionUtils.handle_api_call (api.updateAttempt r.id) max_retries with
      | some (.ok _) => .ok r.id
      | some (.error e) => .error e
      | none => .ok r.id)
  | none =>
    (.createCalled,
      match NotionUtils.handle_api_call api.createAttempt max_retries with
      | some (.ok pageId) => .ok pageId
      | some (.error e) => .error e
      | none => .error "TypeError")

end NotionTasks

namespace NotionProjects

/-- `ProjectOperations.find_existing_project`: first result of the
title-equality query; any exception is caught and becomes `None`. -/
def find_existing_project (response : Except String (List NotionTasks.Record)) :
    Option NotionTasks.Record :=
  match response with
  | .ok rs => rs.head?
  | .error _ => none

/-- `ProjectOperations.create_project_with_tasks`, task loop: each task goes
through `create_or_update_task`; its ids are collected, but an exception is
logged and RE-RAISED, aborting the remaining tasks.  Returns the ids
processed before the abort and the raised error (if any). -/
def create_project_with_tasks
    (apiFor : NotionTasks.Task → NotionTasks.Api) (max_retries : Nat)
    (project_id : String) : List NotionTasks.Task → List Nat × Option String
  | [] => ([], none)
  | t :: rest =>
    match (NotionTasks.create_or_update_task (apiFor t) max_retries t project_id).2 with
    | .ok pageId =>
      let r := create_project_with_tasks apiFor max_retries project_id rest
      (pageId :: r.1, r.2)
    | .error e => ([], some e)

end NotionProjects

namespace NotionOps

/-!
### `src/notion_ops.py` — legacy batch engine

`NotionOperator.create_project_with_tasks` with `find_tasks_batch`: tasks
are processed in batches; existing tasks are found once per batch against
the store as it was when the batch began; a found task is updated only when
its `Type` differs, else skipped; an unfound task is created; a failed
write is counted and the loop continues. -/

/-- A task row as the legacy engine reads it (`Tarefa`, `Type`, `EDT`,
`Fase` cells; `none` models a missing/NaN cell). -/
structure OpsTask where
  name : Option String
  type_ : Option String
  edt : Option String
  fase : Option String
deriving DecidableEq

/-- A record of the remote Tasks database with the properties
`find_tasks_batch` extracts (title, project relation, EDT rich text, Fase
multi-select, Type select). -/
structure OpsRecord where
  id : Nat
  name : String
  project : String
  edt : String
  fases : List String
  type_ : String
deriving DecidableEq

/-- `task.get('Tarefa', 'Unnamed Task')`. -/
def task_name (t : OpsTask) : String := t.name.getD "Unnamed Task"

/-- `str(task.get("EDT", "")) if pd.notna(...) else ""`. -/
def task_edt (t : OpsTask) : String := t.edt.getD ""

/-- Engine side: `[v.strip() for v in str(task.get("Fase")).split(",")]`
(empties kept). -/
def task_fases (t : OpsTask) : List String :=
  match t.fase with
  | some f => (pysplit f ',').map pystrip
  | none => []

/-- Property side (`create_task_properties` multi-select):
`[v.strip() for v in str(value).split(",") if v.strip()]` (empties
dropped). -/
def prop_fases (t : OpsTask) : List String :=
  match t.fase with
  | some f => ((pysplit f ',').map pystrip).filter (fun v => v ≠ "")
  | none => []

/-- `new_type` comparison value:
`str(task.get("Type", "")) if pd.notna(...) else ""`. -/
def new_type (t : OpsTask) : String := t.type_.getD ""

def insert_sorted (x : String) : List String → List String
  | [] => [x]
  | y :: ys => if x ≤ y then x :: y :: ys else y :: insert_sorted x ys

/-- Python `sorted` on strings (insertion sort — order agrees on the
already-deduplicated keys used here). -/
def sort_strings : List String → List String
  | [] => []
  | x :: xs => insert_sorted x (sort_strings xs)

/-- `",".join(sorted(fase_values))`. -/
def fase_key (fases : List String) : String := pyjoin ',' (sort_strings fases)

/-- The composite key `(task_name, project_id, edt, ",".join(sorted(fase)))`
used by both `find_tasks_batch` and the engine loop. -/
structure TaskKey where
  name : String
  project : String
  edt : String
  fase : String
deriving DecidableEq

def task_key (t : OpsTask) (project_id : String) : TaskKey :=
  ⟨task_name t, project_id, task_edt t, fase_key (task_fases t)⟩

def record_key (r : OpsRecord) : TaskKey :=
  ⟨r.name, r.project, r.edt, fase_key r.fases⟩

/-- `find_tasks_batch` followed by `existing_tasks.get(task_key)`: the first
stored record whose extracted key equals the task's key. -/
def find_task_batch (store : List OpsRecord) (k : TaskKey) : Option OpsRecord :=
  store.find? (fun r => record_key r == k)

/-- The record written by `NotionOperator.create_task_properties` (the
required fields plus the Fase multi-select), with the page id the remote
store assigns. -/
def create_task_properties (t : OpsTask) (project_id : String) (page_id : Nat) :
    OpsRecord :=
  { id := page_id, name := task_name t, project := project_id,
    edt := task_edt t, fases := prop_fases t,
    type_ := t.type_.getD "Tarefa" }

/-- `pages.update` overwrites the page's properties, keeping its id. -/
def update_store (store : List OpsRecord) (page_id : Nat) (r' : OpsRecord) :
    List OpsRecord :=
  store.map (fun r => if r.id = page_id then { r' with id := r.id } else r)

/-- Per-task terminal state of the engine run. -/
inductive Outcome where
  | created
  | updated
  | skipped
  | failed
deriving DecidableEq

/-- Per-attempt outcomes of the remote write calls. -/
structure OpsApi where
  createAttempt : OpsTask → Nat → Except String Unit
  updateAttempt : OpsTask → Nat → Nat → Except String Unit

/-- The per-task body of the batch loop in
`NotionOperator.create_project_with_tasks` (lines 660–720): lookup against
the batch snapshot, compare `Type`, update / skip / create; a write whose
retries are exhausted is caught, counted as failed, and the loop
continues. -/
def process_task (api : OpsApi) (max_retries : Nat) (project_id : String)
    (lookup_store store : List OpsRecord) (t : OpsTask) (next_id : Nat) :
    Outcome × List OpsRecord × Nat :=
  match find_task_batch lookup_store (task_key t project_id) with
  | some r =>
    if r.type_ ≠ new_type t then
      match NotionUtils.handle_api_call (api.updateAttempt t r.id) max_retries with
      | some (.ok _) =>
        (.updated, update_store store r.id (create_task_properties t project_id r.id),
          next_id)
      | some (.error _) => (.failed, store, next_id)
      | none => (.updated, store, next_id)
    else (.skipped, store, next_id)
  | none =>
    match NotionUtils.handle_api_call (api.createAttempt t) max_retries with
    | some (.ok _) =>
      (.created, store ++ [create_task_properties t project_id next_id], next_id + 1)
    | some (.error _) => (.failed, store, next_id)
    | none => (.created, store, next_id)

structure EngineState where
  outcomes : List Outcome
  lookup : List OpsRecord
  store : List OpsRecord
  next_id : Nat
  count : Nat
deriving DecidableEq

/-- One iteration of the task loop; at each batch boundary (`batch_size`
tasks) the lookup snapshot is refreshed from the store
(`find_tasks_batch` runs once per batch, before the batch's writes). -/
def engine_step (api : OpsApi) (max_retries : Nat) (project_id : String)
    (batch_size : Nat) (s : EngineState) (t : OpsTask) : EngineState :=
  let lookup := if s.count % batch_size = 0 then s.store else s.lookup
  let r := process_task api max_retries project_id lookup s.store t s.next_id
  { outcomes := s.outcomes ++ [r.1], lookup := lookup, store := r.2.1,
    next_id := r.2.2, count := s.count + 1 }

/-- `NotionOperator.create_project_with_tasks`, reduced to its per-task
outcomes and the final store. -/
def create_project_with_tasks (api : OpsApi) (max_retries batch_size : Nat)
    (project_id : String) (tasks : List OpsTask) (store : List OpsRecord) :
    List Outcome × List OpsRecord :=
  let s := tasks.foldl (engine_step api max_retries project_id batch_size)
    ⟨[], store, store, (store.map (·.id)).foldr max 0 + 1, 0⟩
  (s.outcomes, s.store)

end NotionOps

/-- C2 counterexample: the pipeline's parent computation
`ExcelProcessor.get_parent_task` maps the Milestone code `PR.0001.1.1.M` to
`PR.0001.1.1` (only the final part removed), not to the Phase `PR.0001.1`
the claim demands; and for `PR.0001.M` it yields the Project `PR.0001`
itself. -/
theorem C2_counterexample :
    ExcelProc.get_parent_task (some "PR.0001.1.1.M") = some "PR.0001.1.1" ∧
    (some "PR.0001.1.1" : Option String) ≠ some "PR.0001.1" ∧
    ExcelProc.get_parent_task (some "PR.0001.M") = some "PR.0001" := by
  exact ⟨by decide, by decide, by decide⟩

/-- C2 (amended): for any code of at least three parts,
`get_parent_task` removes exactly the final dot-separated part (so a
`.M` Milestone's parent is the full code minus `.M`, one level deeper than
the claim's Phase), while the Phase component computed by
`process_edt_code` for a trailing-`M` code removes the last two parts,
which is the value (`PR.0001.1`) the claim attributes to the parent. -/
theorem C2_amended_parent_vs_phase (e : String) (he : e ≠ "")
    (hlen : 3 ≤ (pysplit (pystrip e) '.').length) :
    ExcelProc.get_parent_task (some e) =
      some (pyjoin '.' ((pysplit (pystrip e) '.').dropLast)) ∧
    ((pysplit (pystrip e) '.').getLastD "" = "M" →
      (NotionUtils.process_edt_code e).1 =
        pyjoin '.' ((pysplit (pystrip e) '.').dropLast.dropLast)) := by
  constructor
  · unfold ExcelProc.get_parent_task
    simp only []
    rw [if_neg (by omega)]
  · intro hM
    unfold NotionUtils.process_edt_code
    rw [if_neg he]
    simp only [hM, if_pos]

/-- C2 witness: the amended statement evaluated at `PR.0001.1.1.M`. -/
theorem C2_amended_witness :
    ExcelProc.get_parent_task (some "PR.0001.1.1.M") =
      some (pyjoin '.' ((pysplit (pystrip "PR.0001.1.1.M") '.').dropLast)) ∧
    ((pysplit (pystrip "PR.0001.1.1.M") '.').getLastD "" = "M" →
      (NotionUtils.process_edt_code "PR.0001.1.1.M").1 =
        pyjoin '.' ((pysplit (pystrip "PR.0001.1.1.M") '.').dropLast.dropLast)) :=
  C2_amended_parent_vs_phase "PR.0001.1.1.M" (by decide) (by decide)

/-- C3 counterexample: classification is position-independent — the second
depth-2 row `PR.0002` is still `is_project` (not `is_phase`), both depth-2
rows are filtered out of the task set, and had it ever been typed it would
fall to `Tarefa`, never `Fase`. -/
theorem C3_counterexample :
    ExcelProc.is_project ⟨some "PR.0002", some "Beta", none, none⟩ = true ∧
    ExcelProc.is_phase ⟨some "PR.0002", some "Beta", none, none⟩ = false ∧
    ExcelProc.get_type ⟨some "PR.0002", some "Beta", none, none⟩ = "Tarefa" ∧
    ExcelProc.filter_projects
      [⟨some "PR.0001", some "Alpha", none, none⟩,
       ⟨some "PR.0002", some "Beta", none, none⟩] = [] := by
  exact ⟨by decide, by decide, by decide, by decide⟩

/-- C3 (amended): every row whose code starts with `PR.` and has exactly
two dot-separated parts satisfies `is_project` — first or subsequent alike
— never `is_phase`, and is removed from the task rows before any kind is
assigned. -/
theorem C3_amended_depth2_always_project (row : ExcelProc.Row) (e : String)
    (hedt : row.edt = some e)
    (hpr : pystartswith (pystrip e) "PR." = true)
    (hlen : (pysplit (pystrip e) '.').length = 2) :
    ExcelProc.is_project row = true ∧
    ExcelProc.is_phase row = false ∧
    ∀ rows : List ExcelProc.Row, row ∉ ExcelProc.filter_projects rows := by
  have hproj : ExcelProc.is_project row = true := by
    unfold ExcelProc.is_project
    rw [hedt]
    simp [hpr, hlen]
  refine ⟨hproj, ?_, ?_⟩
  · unfold ExcelProc.is_phase
    rw [hedt]
    simp [hlen]
  · intro rows hmem
    rw [ExcelProc.filter_projects, List.mem_filter] at hmem
    rw [hproj] at hmem
    simp at hmem

/-- C3 witness: the amended statement evaluated at the second depth-2 row
of a two-project sheet. -/
theorem C3_amended_witness :
    ExcelProc.is_project ⟨some "PR.0002", some "Beta", none, none⟩ = true ∧
    ExcelProc.is_phase ⟨some "PR.0002", some "Beta", none, none⟩ = false ∧
    (⟨some "PR.0002", some "Beta", none, none⟩ : ExcelProc.Row) ∉
      ExcelProc.filter_projects
        [⟨some "PR.0001", some "Alpha", none, none⟩,
         ⟨some "PR.0002", some "Beta", none, none⟩] := by
  have h := C3_amended_depth2_always_project
    ⟨some "PR.0002", some "Beta", none, none⟩ "PR.0002" rfl (by decide) (by decide)
  exact ⟨h.1, h.2.1, h.2.2 _⟩

/-- C4: a row whose (stripped) code ends with `.M` is classified Milestone
by `get_type`, whatever the title, TIPO and assignee cells hold — the
milestone check precedes the phase and TIPO-mapping checks. -/
theorem C4_trailing_M_is_milestone (row : ExcelProc.Row) (e : String)
    (hedt : row.edt = some e)
    (hM : pyendswith (pystrip e) ".M" = true) :
    ExcelProc.is_milestone row = true ∧ ExcelProc.get_type row = "Milestone" := by
  have h1 : ExcelProc.is_milestone row = true := by
    unfold ExcelProc.is_milestone
    rw [hedt]
    simp [hM]
  refine ⟨h1, ?_⟩
  unfold ExcelProc.get_type
  rw [h1]
  simp

/-- C4 witness: a Milestone row with an assignee and a `T` TIPO cell is
still typed Milestone. -/
theorem C4_witness :
    ExcelProc.is_milestone ⟨some "PR.0001.1.1.M", some "Entrega", some "T", some "Ana"⟩ = true ∧
    ExcelProc.get_type ⟨some "PR.0001.1.1.M", some "Entrega", some "T", some "Ana"⟩ = "Milestone" :=
  C4_trailing_M_is_milestone _ "PR.0001.1.1.M" rfl (by decide)

/-- C5 counterexample: the legacy normalizer `create_date_range` of
`src/excel_processor.py` returns an inverted pair unchanged (start still
`2024-05-10`), not swapped, so the claim's "for every pair … the date
normalizer returns the range with the two values swapped" fails on this
cited implementation. -/
theorem C5_counterexample :
    LegacyExcel.create_date_range (some ⟨2024, 5, 10⟩) (some ⟨2024, 5, 1⟩) =
      some ("2024-05-10", some "2024-05-01") ∧
    LegacyExcel.create_date_range (some ⟨2024, 5, 10⟩) (some ⟨2024, 5, 1⟩) ≠
      some ("2024-05-01", some "2024-05-10") := by
  exact ⟨by decide, by decide⟩

/-- C5 (amended): on an inverted parseable pair, the two normalizers of the
modular pipeline (`format_date_range` of `src/excel/processor.py` and
`create_date_range` of `src/notion/utils.py`) swap the values; the legacy
`create_date_range` of `src/excel_processor.py` returns them in the
original order (without discarding either). -/
theorem C5_amended_swap (sd ed : PyDate) (hlt : PyDate.lt ed sd = true) :
    ExcelProc.format_date_range (some (some sd, some ed)) =
      some (PyDate.fmt ed, PyDate.fmt sd) ∧
    NotionUtils.create_date_range (.val sd) (.val ed) =
      .ok (some (PyDate.fmt ed, PyDate.fmt sd)) ∧
    LegacyExcel.create_date_range (some sd) (some ed) =
      some (PyDate.fmt sd, some (PyDate.fmt ed)) := by
  refine ⟨?_, ?_, rfl⟩
  · simp [ExcelProc.format_date_range, hlt]
  · simp [NotionUtils.create_date_range, NotionUtils.DateCell.boundStr,
      NotionUtils.DateCell.boundDate, hlt]

/-- C5 witness: the amended statement at `(2024-05-10, 2024-05-01)`. -/
theorem C5_amended_witness :
    ExcelProc.format_date_range (some (some ⟨2024, 5, 10⟩, some ⟨2024, 5, 1⟩)) =
      some (PyDate.fmt ⟨2024, 5, 1⟩, PyDate.fmt ⟨2024, 5, 10⟩) ∧
    NotionUtils.create_date_range (.val ⟨2024, 5, 10⟩) (.val ⟨2024, 5, 1⟩) =
      .ok (some (PyDate.fmt ⟨2024, 5, 1⟩, PyDate.fmt ⟨2024, 5, 10⟩)) ∧
    LegacyExcel.create_date_range (some ⟨2024, 5, 10⟩) (some ⟨2024, 5, 1⟩) =
      some (PyDate.fmt ⟨2024, 5, 10⟩, some (PyDate.fmt ⟨2024, 5, 1⟩)) :=
  C5_amended_swap ⟨2024, 5, 10⟩ ⟨2024, 5, 1⟩ (by decide)

/-- C6: at the failing input (start `2024-05-10` parseable, end cell
absent) the normalizer `create_date_range` of `src/notion/utils.py` raises
`UnboundLocalError` (`end_str` is only assigned under `pd.notna`), instead
of producing the point range its own comments promise; the pipeline's
`format_date_range` does produce the point range; the legacy normalizer
emits a dict with no `end` key at all. -/
theorem C6_code_bug_eval :
    NotionUtils.create_date_range (.val ⟨2024, 5, 10⟩) .absent =
      .error "UnboundLocalError" ∧
    ExcelProc.format_date_range (some (some ⟨2024, 5, 10⟩, none)) =
      some ("2024-05-10", "2024-05-10") ∧
    LegacyExcel.create_date_range (some ⟨2024, 5, 10⟩) none =
      some ("2024-05-10", none) := by
  exact ⟨rfl, by decide, by decide⟩

/-- C10: within one run (the generator is reset between runs) every
generated task name is non-empty and not yet used, the used-set grows by
exactly that name, a blank-title row falls back to the `Task`/`Milestone`
prefix plus the row's EDT, and the names of a whole run are pairwise
distinct. -/
theorem C10_names_nonempty_distinct :
    (∀ (used : List String) (row : ExcelProc.Row) (m : Bool),
      (ExcelProc.get_task_name used row m).1 ≠ "" ∧
      (ExcelProc.get_task_name used row m).1 ∉ used ∧
      (ExcelProc.get_task_name used row m).2 =
        (ExcelProc.get_task_name used row m).1 :: used) ∧
    (∀ (e : String) (tipo asg : Option String) (m : Bool),
      ExcelProc.task_name_base ⟨some e, none, tipo, asg⟩ m =
        (if m then ExcelProc.empty_milestone_prefix
         else ExcelProc.empty_task_prefix) ++ " " ++ e) ∧
    (∀ rows : List ExcelProc.Row, (ExcelProc.run_task_names rows).1.Nodup) := by
  refine ⟨?_, ?_, ?_⟩
  · intro used row m
    obtain ⟨h1, h2, _⟩ :=
      ExcelProc.generate_unique_name_spec used (ExcelProc.task_name_base row m)
    exact ⟨ExcelProc.C10support.get_task_name_ne_empty used row m, h1, h2⟩
  · intro e tipo asg m
    rfl
  · intro rows
    exact (ExcelProc.C10support.run_aux rows [] [] List.nodup_nil (by simp)).1

/-- C9: the remote lookups (`find_existing_task`, `find_task_by_edt`,
`find_existing_project`) turn any exception of the underlying query into
`None`, and a failing existence query therefore sends
`create_or_update_task` down the Create path. -/
theorem C9_lookup_failure_creates :
    ∀ (e : String) (qbe : String → String → Except String (List NotionTasks.Record))
      (ca : Nat → Except String Nat) (ua : Nat → Nat → Except String Nat)
      (task : NotionTasks.Task) (pid : String) (maxR : Nat),
      NotionTasks.find_existing_task (.error e) = none ∧
      NotionTasks.find_task_by_edt (.error e) = none ∧
      NotionProjects.find_existing_project (.error e) = none ∧
      (NotionTasks.create_or_update_task
        ⟨fun _ _ _ => .error e, qbe, ca, ua⟩ maxR task pid).1 =
        NotionTasks.Action.createCalled := by
  intro e qbe ca ua task pid maxR
  refine ⟨rfl, rfl, rfl, ?_⟩
  cases h : NotionTasks.edt_truthy task.edt <;>
    simp [NotionTasks.create_or_update_task, h, NotionTasks.find_existing_task]

/-- C8: a Task whose non-null, truthy parent EDT matches no remote record
is still created — its property bag carries no parent relation, and the
creation call is issued and succeeds. -/
theorem C8_missing_parent_still_created
    (api : NotionTasks.Api) (task : NotionTasks.Task) (pid p : String)
    (nid maxR : Nat)
    (hpar : task.parent = some p) (hp : p ≠ "")
    (hmiss : api.queryByEdt p pid = .ok [])
    (hfresh : api.queryExisting task.name (task.edt.getD "") pid = .ok [])
    (hok : api.createAttempt 0 = .ok nid) (hmax : 0 < maxR) :
    (NotionTasks.create_task_properties api task pid).parent = none ∧
    NotionTasks.create_or_update_task api maxR task pid =
      (.createCalled, .ok nid) := by
  have hprops : (NotionTasks.create_task_properties api task pid).parent = none := by
    simp [NotionTasks.create_task_properties, hpar, hp, hmiss,
      NotionTasks.find_task_by_edt]
  refine ⟨hprops, ?_⟩
  have hex : (if NotionTasks.edt_truthy task.edt then
      NotionTasks.find_existing_task
        (api.queryExisting task.name (task.edt.getD "") pid)
    else none) = none := by
    cases h : NotionTasks.edt_truthy task.edt
    · simp
    · simp [hfresh, NotionTasks.find_existing_task]
  simp [NotionTasks.create_or_update_task, hex,
    NotionUtils.handle_api_call_first_ok _ nid maxR hmax hok]

/-- C8 witness: a concrete task with a dangling parent EDT is created with
no parent relation. -/
theorem C8_witness :
    (NotionTasks.create_task_properties
      ⟨fun _ _ _ => .ok [], fun _ _ => .ok [], fun _ => .ok 7, fun _ _ => .ok 0⟩
      ⟨"Wireframe", some "PR.0001.1.1", some "PR.0001.1"⟩ "proj").parent = none ∧
    NotionTasks.create_or_update_task
      ⟨fun _ _ _ => .ok [], fun _ _ => .ok [], fun _ => .ok 7, fun _ _ => .ok 0⟩
      3 ⟨"Wireframe", some "PR.0001.1.1", some "PR.0001.1"⟩ "proj" =
      (.createCalled, .ok 7) :=
  C8_missing_parent_still_created _ _ "proj" "PR.0001.1" 7 3 rfl (by decide)
    rfl rfl rfl (by decide)

namespace NotionOps

theorem find?_append_of_none {α : Type} (p : α → Bool) (l₁ l₂ : List α)
    (h : l₁.find? p = none) : (l₁ ++ l₂).find? p = l₂.find? p := by
  induction l₁ with
  | nil => simp
  | cons a l ih =>
    cases hp : p a
    · rw [List.find?_cons_of_neg _ (by simp [hp])] at h
      rw [List.cons_append, List.find?_cons_of_neg _ (by simp [hp])]
      exact ih h
    · rw [List.find?_cons_of_pos _ hp] at h
      cases h

/-- The engine never aborts: one outcome is recorded per submitted task. -/
theorem engine_outcomes_length (api : OpsApi) (maxR bs : Nat) (pid : String)
    (tasks : List OpsTask) :
    ∀ s : EngineState,
      ((tasks.foldl (engine_step api maxR pid bs) s).outcomes).length =
        s.outcomes.length + tasks.length := by
  induction tasks with
  | nil => intro s; simp
  | cons t rest ih =>
    intro s
    rw [List.foldl_cons, ih]
    simp [engine_step]
    omega

/-- The record a create writes carries exactly the composite key the engine
looks tasks up by — provided the `Type` cell is present and the `Fase`
components are non-empty once stripped. -/
theorem record_key_create (t : OpsTask) (pid : String) (page_id : Nat)
    (hfase : ∀ v ∈ task_fases t, v ≠ "") :
    record_key (create_task_properties t pid page_id) = task_key t pid := by
  have hf : prop_fases t = task_fases t := by
    unfold prop_fases task_fases
    match h : t.fase with
    | none => rfl
    | some f =>
      apply List.filter_eq_self.mpr
      intro v hv
      simp only [decide_eq_true_eq]
      apply hfase
      rw [task_fases, h]
      exact hv
  simp [record_key, create_task_properties, task_key, hf]

end NotionOps

/-- C7 counterexample: in the modular engine
(`ProjectOperations.create_project_with_tasks` of `src/notion/projects.py`)
the first task's exhausted retries re-raise and abort the upload — with a
failing first task and a healthy second, no task ids are returned, the
error propagates, and the second task is never processed, contradicting
"one task's failure never aborts the whole upload". -/
theorem C7_counterexample :
    NotionProjects.create_project_with_tasks
      (fun t =>
        if t.name = "bad" then
          ⟨fun _ _ _ => .ok [], fun _ _ => .ok [],
           fun _ => .error "boom", fun _ _ => .ok 0⟩
        else
          ⟨fun _ _ _ => .ok [], fun _ _ => .ok [],
           fun _ => .ok 1, fun _ _ => .ok 0⟩)
      3 "proj"
      [⟨"bad", some "PR.0001.1.1", none⟩, ⟨"good", some "PR.0001.1.2", none⟩] =
      ([], some "boom") := by
  rfl

/-- C7 (amended): in the legacy engine
(`NotionOperator.create_project_with_tasks` of `src/notion_ops.py`) the
batch always records one outcome per task (no abort), and a task all of
whose create (resp. update) attempts fail ends as `failed` with the store
untouched, the loop moving on.  In the modular engine of
`src/notion/projects.py` the same exhaustion re-raises instead (see the
counterexample). -/
theorem C7_amended_failed_and_continue :
    (∀ (api : NotionOps.OpsApi) (maxR bs : Nat) (pid : String)
      (tasks : List NotionOps.OpsTask) (store : List NotionOps.OpsRecord),
      ((NotionOps.create_project_with_tasks api maxR bs pid tasks store).1).length =
        tasks.length) ∧
    (∀ (api : NotionOps.OpsApi) (maxR : Nat) (pid : String)
      (lookup store : List NotionOps.OpsRecord) (t : NotionOps.OpsTask)
      (nid : Nat) (e : Nat → String), 0 < maxR →
      (∀ n, api.createAttempt t n = .error (e n)) →
      NotionOps.find_task_batch lookup (NotionOps.task_key t pid) = none →
      NotionOps.process_task api maxR pid lookup store t nid =
        (.failed, store, nid)) ∧
    (∀ (api : NotionOps.OpsApi) (maxR : Nat) (pid : String)
      (lookup store : List NotionOps.OpsRecord) (t : NotionOps.OpsTask)
      (nid : Nat) (r : NotionOps.OpsRecord) (e : Nat → String), 0 < maxR →
      (∀ n, api.updateAttempt t r.id n = .error (e n)) →
      NotionOps.find_task_batch lookup (NotionOps.task_key t pid) = some r →
      r.type_ ≠ NotionOps.new_type t →
      NotionOps.process_task api maxR pid lookup store t nid =
        (.failed, store, nid)) := by
  refine ⟨?_, ?_, ?_⟩
  · intro api maxR bs pid tasks store
    have h := NotionOps.engine_outcomes_length api maxR bs pid tasks
      ⟨[], store, store, (store.map (·.id)).foldr max 0 + 1, 0⟩
    simpa [NotionOps.create_project_with_tasks] using h
  · intro api maxR pid lookup store t nid e hmax hfail hmiss
    unfold NotionOps.process_task
    rw [hmiss, NotionUtils.handle_api_call_all_fail _ e maxR hmax hfail]
  · intro api maxR pid lookup store t nid r e hmax hfail hfound hdiff
    simp only [NotionOps.process_task, hfound]
    rw [if_pos hdiff, NotionUtils.handle_api_call_all_fail _ e maxR hmax hfail]

/-- C7 witness: the amended statement at a concrete always-failing create
(a fresh task, empty store). -/
theorem C7_amended_witness :
    NotionOps.process_task
      ⟨fun _ _ => .error "boom", fun _ _ _ => .error "boom"⟩ 3 "proj" [] []
      ⟨some "bad", some "Tarefa", some "PR.0001.1.1", none⟩ 5 =
      (.failed, [], 5) :=
  C7_amended_failed_and_continue.2.1
    ⟨fun _ _ => .error "boom", fun _ _ _ => .error "boom"⟩ 3 "proj" [] []
    ⟨some "bad", some "Tarefa", some "PR.0001.1.1", none⟩ 5 (fun _ => "boom")
    (by decide) (fun _ => rfl) rfl

/-- C1: submitting the same task twice to the legacy reconciliation engine
(`NotionOperator.create_project_with_tasks`): the first run creates the
record (outcome `created`); the second run's batch lookup finds it, the
`Type` comparison detects no change, and the outcome is `skipped` with the
store untouched — never two creates, and exactly one record carries the
task's composite key.  (Hypotheses: the task is initially fresh, its `Type`
cell is present, its `Fase` components are non-blank, and the create call
succeeds.) -/
theorem C1_upsert_idempotent (api : NotionOps.OpsApi) (maxR bs : Nat)
    (pid : String) (t : NotionOps.OpsTask) (store : List NotionOps.OpsRecord)
    (ty : String) (hty : t.type_ = some ty)
    (hfase : ∀ v ∈ NotionOps.task_fases t, v ≠ "")
    (hfresh : ∀ r ∈ store, NotionOps.record_key r ≠ NotionOps.task_key t pid)
    (hok : api.createAttempt t 0 = .ok ()) (hmax : 0 < maxR) :
    (NotionOps.create_project_with_tasks api maxR bs pid [t] store).1 =
      [NotionOps.Outcome.created] ∧
    (NotionOps.create_project_with_tasks api maxR bs pid [t]
        (NotionOps.create_project_with_tasks api maxR bs pid [t] store).2).1 =
      [NotionOps.Outcome.skipped] ∧
    (NotionOps.create_project_with_tasks api maxR bs pid [t]
        (NotionOps.create_project_with_tasks api maxR bs pid [t] store).2).2 =
      (NotionOps.create_project_with_tasks api maxR bs pid [t] store).2 ∧
    ((NotionOps.create_project_with_tasks api maxR bs pid [t] store).2.filter
      (fun r => NotionOps.record_key r == NotionOps.task_key t pid)).length = 1 := by
  have hfind1 : NotionOps.find_task_batch store (NotionOps.task_key t pid) = none := by
    unfold NotionOps.find_task_batch
    apply List.find?_eq_none.mpr
    intro r hr
    simp only [beq_iff_eq]
    exact hfresh r hr
  have hstep1 : ∀ nid, NotionOps.process_task api maxR pid store store t nid =
      (.created, store ++ [NotionOps.create_task_properties t pid nid], nid + 1) := by
    intro nid
    simp only [NotionOps.process_task, hfind1]
    rw [NotionUtils.handle_api_call_first_ok _ () maxR hmax hok]
  have hrun1 : NotionOps.create_project_with_tasks api maxR bs pid [t] store =
      ([.created], store ++ [NotionOps.create_task_properties t pid
        ((store.map (·.id)).foldr max 0 + 1)]) := by
    simp [NotionOps.create_project_with_tasks, NotionOps.engine_step, hstep1]
  set rec := NotionOps.create_task_properties t pid
    ((store.map (·.id)).foldr max 0 + 1) with hrec
  have hkeyrec : NotionOps.record_key rec = NotionOps.task_key t pid :=
    NotionOps.record_key_create t pid _ hfase
  have hfind2 : NotionOps.find_task_batch (store ++ [rec])
      (NotionOps.task_key t pid) = some rec := by
    unfold NotionOps.find_task_batch
    rw [NotionOps.find?_append_of_none _ _ _ hfind1]
    rw [List.find?_cons_of_pos _ (by simp [hkeyrec])]
  have hstep2 : ∀ nid, NotionOps.process_task api maxR pid (store ++ [rec])
      (store ++ [rec]) t nid = (.skipped, store ++ [rec], nid) := by
    intro nid
    simp only [NotionOps.process_task, hfind2]
    rw [if_neg]
    simp [hrec, NotionOps.create_task_properties, NotionOps.new_type, hty]
  have hrun2 : NotionOps.create_project_with_tasks api maxR bs pid [t]
      (store ++ [rec]) = ([.skipped], store ++ [rec]) := by
    simp [NotionOps.create_project_with_tasks, NotionOps.engine_step, hstep2]
  have hcount : ((store ++ [rec]).filter
      (fun r => NotionOps.record_key r == NotionOps.task_key t pid)).length = 1 := by
    rw [List.filter_append]
    have h1 : store.filter
        (fun r => NotionOps.record_key r == NotionOps.task_key t pid) = [] := by
      apply List.filter_eq_nil_iff.mpr
      intro r hr
      simp only [beq_iff_eq]
      exact hfresh r hr
    rw [h1]
    simp [hkeyrec]
  refine ⟨?_, ?_, ?_, ?_⟩
  · rw [hrun1]
  · rw [hrun1]
    dsimp only
    rw [hrun2]
  · rw [hrun1]
    dsimp only
    rw [hrun2]
  · rw [hrun1]
    exact hcount

/-- C1 witness: a concrete fresh task run twice against an empty store —
first `created`, then `skipped`, one record with its key. -/
theorem C1_witness :
    (NotionOps.create_project_with_tasks ⟨fun _ _ => .ok (), fun _ _ _ => .ok ()⟩
      3 10 "proj" [⟨some "Wireframe", some "Tarefa", some "PR.0001.1.1", some "Phase A"⟩]
      []).1 = [NotionOps.Outcome.created] ∧
    (NotionOps.create_project_with_tasks ⟨fun _ _ => .ok (), fun _ _ _ => .ok ()⟩
      3 10 "proj" [⟨some "Wireframe", some "Tarefa", some "PR.0001.1.1", some "Phase A"⟩]
      (NotionOps.create_project_with_tasks ⟨fun _ _ => .ok (), fun _ _ _ => .ok ()⟩
        3 10 "proj" [⟨some "Wireframe", some "Tarefa", some "PR.0001.1.1", some "Phase A"⟩]
        []).2).1 = [NotionOps.Outcome.skipped] ∧
    (NotionOps.create_project_with_tasks ⟨fun _ _ => .ok (), fun _ _ _ => .ok ()⟩
      3 10 "proj" [⟨some "Wireframe", some "Tarefa", some "PR.0001.1.1", some "Phase A"⟩]
      (NotionOps.create_project_with_tasks ⟨fun _ _ => .ok (), fun _ _ _ => .ok ()⟩
        3 10 "proj" [⟨some "Wireframe", some "Tarefa", some "PR.0001.1.1", some "Phase A"⟩]
        []).2).2 =
      (NotionOps.create_project_with_tasks ⟨fun _ _ => .ok (), fun _ _ _ => .ok ()⟩
        3 10 "proj" [⟨some "Wireframe", some "Tarefa", some "PR.0001.1.1", some "Phase A"⟩]
        []).2 ∧
    ((NotionOps.create_project_with_tasks ⟨fun _ _ => .ok (), fun _ _ _ => .ok ()⟩
      3 10 "proj" [⟨some "Wireframe", some "Tarefa", some "PR.0001.1.1", some "Phase A"⟩]
      []).2.filter (fun r => NotionOps.record_key r ==
        NotionOps.task_key ⟨some "Wireframe", some "Tarefa", some "PR.0001.1.1", some "Phase A"⟩
          "proj")).length = 1 :=
  C1_upsert_idempotent ⟨fun _ _ => .ok (), fun _ _ _ => .ok ()⟩ 3 10 "proj"
    ⟨some "Wireframe", some "Tarefa", some "PR.0001.1.1", some "Phase A"⟩ []
    "Tarefa" rfl (by decide) (by simp) rfl (by decide)
